import Mathlib

/-!
Verification of the neomoose persistence core (`src/lib/db.js`).

The file shallowly embeds the data model and the operations of `MooseDB`:
the record codec (`rowToMoose` / `mooseToRow`), the argument validation
(`notInt`), the search-query tokenizer of `_findMooseByQuery`, the SQLite
schema semantics that `db.js` sets up (the `Moose` table with its NOT NULL
and UNIQUE constraints, the `MooseSearch` shadow table maintained by the
`Moose_InsertTrigger` / `Moose_DelTrigger` triggers, rowid assignment), the
mutation operations (`saveMoose`, `bulkSaveMoose`, `deleteMoose`,
`saveMoosePng`), the query operations (`getMooseByName`, `getGalleryPage`,
`getRandomMoose`) and the streaming JSON exporter (`MooseReadable`).

JavaScript values are modelled explicitly: a JS number is `JSNum`
(NaN / ±Infinity / a rational), a JS `Date` time value is `Option Int`
(`none` is an Invalid Date, whose numeric value is NaN; per ECMA-262
TimeClip a valid Date's time value is always an integer of magnitude at
most 8.64e15, so a Date is never finite-and-non-integral), and possibly
missing object fields are `Option` fields.
-/

namespace NeoMoose

/-- Model of a JavaScript number: NaN, the two infinities, or a finite
value represented exactly as a rational. -/
inductive JSNum where
  | nan
  | inf
  | ninf
  | num (q : ℚ)
deriving DecidableEq, Repr

/-- JS `isNaN` on an already-numeric value. -/
def JSNum.isNaN : JSNum → Bool
  | .nan => true
  | _ => false

/-- JS `isFinite` on an already-numeric value. -/
def JSNum.isFinite : JSNum → Bool
  | .num _ => true
  | _ => false

/-- JS `Number.isInteger`. -/
def JSNum.isInteger : JSNum → Bool
  | .num q => q.den == 1
  | _ => false

/-- The integer value of a validated JSNum (only meaningful when
`isInteger`; other cases are never reached by the code paths that use it). -/
def JSNum.toInt : JSNum → Int
  | .num q => q.num
  | _ => 0

/-- Embedding of `notInt` from db.js:
`isNaN(val) || !isFinite(val) || !Number.isInteger(val)`. -/
def notInt (val : JSNum) : Bool :=
  val.isNaN || !val.isFinite || !val.isInteger

/-- Largest admissible JS Date time value (ECMA-262: 8.64e15 ms). -/
def maxDateMs : Nat := 8640000000000000

/-- Model of `new Date(t)` for an integer argument: the time value is `t`
when it is within the admissible range, otherwise the Date is invalid
(NaN time value, modelled as `none`). -/
def mkDate (t : Int) : Option Int :=
  if t.natAbs ≤ maxDateMs then some t else none

/-- A Moose as the dynamic JavaScript object that callers hand to the
encoder `mooseToRow`: every field may be absent (`none`). `created` is a
JS `Date` time value (`none` = missing field or Invalid Date, both of
which make `+moose.created` NaN). -/
structure MooseJS where
  name : Option String
  created : Option Int
  image : Option String
  shade : Option String
  hd : Option Bool
  shaded : Option Bool
  extended : Option Bool
deriving DecidableEq, Repr

/-- A decoded Moose as produced by `rowToMoose` (the `Moose` typedef of
db.js): concrete strings, a `Date` for `created`, and real booleans. -/
structure Moose where
  name : String
  image : String
  shade : String
  created : Option Int
  hd : Bool
  shaded : Bool
  extended : Bool
deriving DecidableEq, Repr

/-- The `MooseRow` shape produced by `mooseToRow` and bound to the INSERT
statement: `name`/`created`/`image` may be SQL NULL (`none`), `shade` is a
string and the flags are the integers 0/1. -/
structure MooseRow where
  name : Option String
  created : Option Int
  image : Option String
  shade : String
  hd : Nat
  shaded : Nat
  extended : Nat
deriving DecidableEq, Repr

/-- A committed row of the `Moose` table: the NOT NULL columns are
concrete, `rowid` is SQLite's internal row identifier and `png` is the
optional blob column. -/
structure StoredRow where
  rowid : Nat
  name : String
  created : Int
  image : String
  shade : String
  hd : Nat
  shaded : Nat
  extended : Nat
  png : Option (List Nat)
deriving DecidableEq, Repr

/-- Embedding of `rowToMoose` from db.js on a present row: field-by-field
copy, `created: new Date(row.created)`, and `!!` coercion of the 0/1
flags. -/
def rowToMoose (row : StoredRow) : Moose :=
  { name := row.name
    image := row.image
    shade := row.shade
    created := mkDate row.created
    hd := row.hd != 0
    shaded := row.shaded != 0
    extended := row.extended != 0 }

/-- Embedding of `mooseToRow` from db.js:
`name ?? null`, `isNaN(+created) ? null : +created` (on a Date time value
NaN is exactly the `none` case), `image ?? null`, `shade ?? ''`, and
`b ? 1 : 0` for the flags. -/
def mooseToRow (moose : MooseJS) : MooseRow :=
  { name := moose.name
    created := moose.created
    image := moose.image
    shade := moose.shade.getD ""
    hd := if moose.hd.getD false then 1 else 0
    shaded := if moose.shaded.getD false then 1 else 0
    extended := if moose.extended.getD false then 1 else 0 }

/-! ### String utilities modelling JavaScript primitives -/

/-- Whitespace characters matched by the JS regex class in the tokenizer
split (ASCII whitespace plus the Unicode space characters). -/
def isWsChar (c : Char) : Bool :=
  c = ' ' || c = '\t' || c = '\n' || c = '\r' || c.toNat = 0x0b || c.toNat = 0x0c ||
  c.toNat = 0xa0 || c.toNat = 0x1680 || (0x2000 ≤ c.toNat && c.toNat ≤ 0x200a) ||
  c.toNat = 0x2028 || c.toNat = 0x2029 || c.toNat = 0x202f || c.toNat = 0x205f ||
  c.toNat = 0x3000 || c.toNat = 0xfeff

/-- Worker for `splitWs`: `inWs` records whether the previous character
was part of a whitespace run; `cur` is the current token (reversed). -/
def splitAux : Bool → List Char → List Char → List String
  | _, [], cur => [String.mk cur.reverse]
  | inWs, c :: rest, cur =>
    if isWsChar c then
      if inWs then splitAux true rest cur
      else String.mk cur.reverse :: splitAux true rest []
    else splitAux false rest (c :: cur)

/-- JS `str.split` on a whitespace-run regex: maximal whitespace runs are
separators; a leading or trailing run contributes an empty token, and the
empty string splits to `[""]`. -/
def splitWs (s : String) : List String :=
  splitAux false s.data []

/-- JS `Array.prototype.join(sep)`. -/
def joinWith (sep : String) : List String → String
  | [] => ""
  | [x] => x
  | x :: y :: rest => x ++ sep ++ joinWith sep (y :: rest)

/-- JS `Array.prototype.map` with the element index passed to the
callback, starting from `i`. -/
def mapWithIdx (f : Nat → α → β) : Nat → List α → List β
  | _, [] => []
  | i, w :: rest => f i w :: mapWithIdx f (i + 1) rest

/-! ### The search tokenizer of `_findMooseByQuery` -/

/-- JS `word.replace` doubling every double-quote character. -/
def dblQuotes (w : String) : String :=
  String.mk (w.data.foldr (fun c acc => if c = '"' then '"' :: '"' :: acc else c :: acc) [])

/-- Escape one query word: double the embedded quotes and wrap the word in
double quotes. -/
def quoteWord (w : String) : String :=
  "\"" ++ dblQuotes w ++ "\""

/-- The per-word rule of the tokenizer in `_findMooseByQuery`: a word that
is exactly `AND` or `OR` and is not at the last index passes through,
every other word is escaped and quoted. `len` is the length of the split
array. -/
def ftsWordRule (len ind : Nat) (word : String) : String :=
  if (word = "AND" ∨ word = "OR") ∧ ind ≠ len - 1 then word else quoteWord word

/-- Embedding of the expression builder of `_findMooseByQuery`:
`query.split(/\s+/).map((word, ind, arr) => ...).join(' ')`. -/
def ftsQueryString (query : String) : String :=
  joinWith " " (mapWithIdx (ftsWordRule (splitWs query).length) 0 (splitWs query))

/-- The spec-side word rule: connectors (`AND`/`OR`) pass through, every
other word is escaped and quoted. -/
def specWordRule (w : String) : String :=
  if w = "AND" ∨ w = "OR" then w else quoteWord w

/-- The tokenizer as the specification words it: split on whitespace; a
token that is exactly `AND` or `OR` and is not the final token passes
through unchanged; every other token has embedded double quotes doubled
and is wrapped in double quotes; tokens are rejoined with single spaces.
Stated by treating the final token separately from the earlier ones. -/
def tokenizeSpec (query : String) : String :=
  match (splitWs query).getLast? with
  | none => ""
  | some lastTok =>
    joinWith " " ((splitWs query).dropLast.map specWordRule ++ [quoteWord lastTok])

/-! ### FTS5 match expressions

The `MooseSearch MATCH ?` step hands the built expression to SQLite's
fts5 extension.  Because every non-connector word is rendered as a
double-quoted string with embedded quotes doubled, lexing the built
expression recovers exactly the word list with each word tagged as either
a bare connector (`AND`/`OR`) or a quoted phrase; `FtsTok` is that token
stream.  The documented fts5 query grammar for such a stream: it must be
a nonempty sequence of phrases in which consecutive phrases may have at
most one connector between them, and a connector can neither start nor
end the expression — otherwise fts5 reports a query syntax error and the
statement throws. -/

/-- One token of the built match expression. -/
inductive FtsTok where
  | phrase (w : String)
  | opAnd
  | opOr
deriving DecidableEq, Repr

/-- The per-word rule of `_findMooseByQuery` at the token level: the same
branch condition as `ftsWordRule`, tagging which branch was taken. -/
def ftsTokRule (len ind : Nat) (word : String) : FtsTok :=
  if (word = "AND" ∨ word = "OR") ∧ ind ≠ len - 1 then
    (if word = "AND" then .opAnd else .opOr)
  else .phrase word

/-- Token stream of the expression `_findMooseByQuery` builds for `query`. -/
def ftsTokens (query : String) : List FtsTok :=
  mapWithIdx (ftsTokRule (splitWs query).length) 0 (splitWs query)

/-- Validity worker: `needPhrase` is true at the start of the expression
and right after a connector, where only a phrase may appear and the
stream must not end. -/
def ftsValidAux : Bool → List FtsTok → Bool
  | needPhrase, [] => !needPhrase
  | _, .phrase _ :: rest => ftsValidAux false rest
  | needPhrase, .opAnd :: rest => if needPhrase then false else ftsValidAux true rest
  | needPhrase, .opOr :: rest => if needPhrase then false else ftsValidAux true rest

/-- Whether fts5 accepts the token stream as a match expression. -/
def ftsValid (toks : List FtsTok) : Bool :=
  ftsValidAux true toks

/-- Word list of a string under the unicode61 tokenizer, restricted to
ASCII case folding and without porter stemming: maximal alphanumeric runs,
lowercased.  Only the syntax-error behaviour of MATCH is relied on by the
theorems below; this matching model is a simplification of fts5's
stemming tokenizer. -/
def ftsWords (s : String) : List String :=
  (splitAux false (s.data.map (fun c => if c.isAlphanum then c.toLower else ' ')) []).filter
    (fun w => w ≠ "")

/-- Whether `xs` occurs at the head of `ys`. -/
def leadsWith : List String → List String → Bool
  | [], _ => true
  | _ :: _, [] => false
  | x :: xs, y :: ys => x == y && leadsWith xs ys

/-- Whether `xs` occurs contiguously inside `ys`. -/
def containsSeq (xs : List String) : List String → Bool
  | [] => leadsWith xs []
  | y :: ytl => leadsWith xs (y :: ytl) || containsSeq xs ytl

/-- A quoted phrase matches a name when its word sequence occurs
contiguously among the name's words. -/
def phraseMatches (p name : String) : Bool :=
  containsSeq (ftsWords p) (ftsWords name)

/-- Split a token stream at the `OR` connectors. -/
def splitAtOr : List FtsTok → List (List FtsTok)
  | [] => [[]]
  | .opOr :: rest =>
    [] :: splitAtOr rest
  | t :: rest =>
    match splitAtOr rest with
    | [] => [[t]]
    | g :: gs => (t :: g) :: gs

/-- Evaluate a match expression on a name: fts5 gives `AND` (explicit or
implicit between adjacent phrases) precedence over `OR`, so the stream is
an OR of AND-groups of phrases. -/
def ftsMatchName (toks : List FtsTok) (name : String) : Bool :=
  (splitAtOr toks).any fun g =>
    g.all fun t =>
      match t with
      | .phrase w => phraseMatches w name
      | _ => true

/-! ### The database state and its operations -/

/-- Error taxonomy of the embedded store, mirroring the exceptions db.js
can see: the two SQLite constraint failures it distinguishes, the
`TypeError` thrown by `getGalleryPage`'s validation, and an fts5 query
syntax error raised by the MATCH statement. -/
inductive DBErr where
  | uniqueName
  | notNullName
  | notNullCreated
  | notNullImage
  | typeError
  | ftsBadQuery
deriving DecidableEq, Repr

/-- State of the store: the `Moose` table rows and the `MooseSearch`
shadow table contents (a bag of names). -/
structure DB where
  rows : List StoredRow
  search : List String
deriving DecidableEq, Repr

/-- The store right after the constructor created the empty schema. -/
def emptyDB : DB := ⟨[], []⟩

/-- Largest rowid in use (0 when the table is empty; SQLite assigns
`max(rowid) + 1` to a plain INSERT). -/
def maxRowid (rows : List StoredRow) : Nat :=
  (rows.map (·.rowid)).foldr max 0

/-- Running the prepared INSERT of `saveMooseStmt` on a bound `MooseRow`:
the NOT NULL constraints on `name`, `created` and `image` and the
uniqueness of `name` are enforced, the new row gets rowid
`max(rowid) + 1` with an absent `png`, and `Moose_InsertTrigger` appends
the name to `MooseSearch`. -/
def insertRow (db : DB) (r : MooseRow) : Except DBErr DB :=
  match r.name, r.created, r.image with
  | none, _, _ => .error .notNullName
  | _, none, _ => .error .notNullCreated
  | _, _, none => .error .notNullImage
  | some n, some c, some i =>
    if db.rows.any (fun row => row.name == n) then
      .error .uniqueName
    else
      .ok { rows := db.rows ++
              [{ rowid := maxRowid db.rows + 1, name := n, created := c, image := i,
                 shade := r.shade, hd := r.hd, shaded := r.shaded,
                 extended := r.extended, png := none }]
            search := db.search ++ [n] }

/-- Embedding of `MooseDB.saveMoose`. -/
def saveMoose (db : DB) (m : MooseJS) : Except DBErr DB :=
  insertRow db (mooseToRow m)

/-- Embedding of `MooseDB.getMooseByName`. -/
def getMooseByName (db : DB) (n : String) : Option Moose :=
  (db.rows.find? (fun row => row.name == n)).map rowToMoose

/-- Embedding of `MooseDB.deleteMoose` together with `Moose_DelTrigger`:
delete the row named `n` (the name is a primary key, so at most one row
matches), then the trigger deletes the matching `MooseSearch` entries and
runs `UPDATE Moose SET rowid = OLD.rowid WHERE rowid = (SELECT max(rowid)
FROM Moose)` against the post-delete table. -/
def deleteMoose (db : DB) (n : String) : DB :=
  match db.rows.find? (fun row => row.name == n) with
  | none => db
  | some old =>
    let rows1 := db.rows.filter (fun row => row.name ≠ n)
    let search1 := db.search.filter (fun s => s ≠ n)
    let m := maxRowid rows1
    let rows2 := rows1.map (fun row =>
      if row.rowid = m then { row with rowid := old.rowid } else row)
    ⟨rows2, search1⟩

/-- Embedding of `MooseDB.saveMoosePng` (`UPDATE Moose SET png = $png
WHERE name = $name`; an absent name updates zero rows). -/
def saveMoosePng (db : DB) (n : String) (png : List Nat) : DB :=
  { db with rows := db.rows.map (fun row =>
      if row.name = n then { row with png := some png } else row) }

/-- Embedding of `MooseDB.getMoosePng` (`stmt.get(moose)?.png`). -/
def getMoosePng (db : DB) (n : String) : Option (List Nat) :=
  (db.rows.find? (fun row => row.name == n)).bind (·.png)

/-- The body of the transaction in `MooseDB.bulkSaveMoose`: insert each
moose in order; an insert failing with exactly the SqliteError message
`UNIQUE constraint failed: Moose.name` is logged and skipped, any other
error is re-thrown. -/
def bulkBody (db : DB) : List MooseJS → Except DBErr DB
  | [] => .ok db
  | m :: rest =>
    match insertRow db (mooseToRow m) with
    | .ok db1 => bulkBody db1 rest
    | .error .uniqueName => bulkBody db rest
    | .error e => .error e

/-- Embedding of `MooseDB.bulkSaveMoose`: the body runs in one
transaction, so an escaping error rolls the whole batch back — the
post-state is the pre-transaction state and the error propagates. -/
def bulkSaveMoose (db : DB) (ms : List MooseJS) : DB × Option DBErr :=
  match bulkBody db ms with
  | .ok db1 => (db1, none)
  | .error e => (db, some e)

/-- Insert a row into a list sorted by `le` (insertion sort step). -/
def insSorted (le : StoredRow → StoredRow → Bool) (x : StoredRow) :
    List StoredRow → List StoredRow
  | [] => [x]
  | y :: rest => if le x y then x :: y :: rest else y :: insSorted le x rest

/-- Sort rows by `le` (models the ORDER BY of the gallery queries). -/
def sortRows (le : StoredRow → StoredRow → Bool) : List StoredRow → List StoredRow
  | [] => []
  | x :: rest => insSorted le x (sortRows le rest)

/-- `ORDER BY created ASC` / `DESC`. -/
def sortByCreated (asc : Bool) (rows : List StoredRow) : List StoredRow :=
  sortRows (fun a b => if asc then a.created ≤ b.created else b.created ≤ a.created) rows

/-- SQLite `LIMIT off, lim` semantics: a negative offset skips nothing, a
negative limit means no limit. -/
def sqlPage (xs : List StoredRow) (off lim : Int) : List StoredRow :=
  (xs.drop off.toNat).take (if lim < 0 then xs.length else lim.toNat)

/-- Embedding of `MooseDB._findMooseByQuery`: build the escaped match
expression, run the MATCH (an invalid expression makes the statement
throw an fts5 syntax error), join the matching names back to the table,
re-sort by `created` and apply LIMIT. -/
def findMooseByQuery (db : DB) (query : String) (off lim : Int) (asc : Bool) :
    Except DBErr (List Moose) :=
  let toks := ftsTokens query
  if ftsValid toks then
    .ok ((sqlPage
      (sortByCreated asc (db.rows.filter (fun row => ftsMatchName toks row.name)))
      off lim).map rowToMoose)
  else
    .error .ftsBadQuery

/-- Embedding of `MooseDB.getGalleryPage`: `order === 'oldest'` selects
ascending order, `notInt(+offset) || notInt(+limit)` throws a TypeError
before any statement runs, an empty query paginates the whole table and a
non-empty query goes through `_findMooseByQuery`. -/
def getGalleryPage (db : DB) (query : String) (offset lim : JSNum) (order : String) :
    Except DBErr (List Moose) :=
  let asc := order = "oldest"
  if notInt offset || notInt lim then
    .error .typeError
  else if query ≠ "" then
    findMooseByQuery db query offset.toInt lim.toInt asc
  else
    .ok ((sqlPage (sortByCreated asc db.rows) offset.toInt lim.toInt).map rowToMoose)

/-- Embedding of `MooseDB.getRandomMoose`; `rand` stands for the value of
`ABS(RANDOM())`.  On an empty table `max(rowid)` is NULL, the comparison
`rowid = NULL` selects nothing and the statement returns no row. -/
def getRandomMoose (db : DB) (rand : Nat) : Option Moose :=
  match db.rows with
  | [] => none
  | _ :: _ =>
    (db.rows.find? (fun row => row.rowid == rand % maxRowid db.rows + 1)).map rowToMoose

/-- Post-state of a `saveMoose` call (an insert that threw changes
nothing). -/
def afterSave (db : DB) (m : MooseJS) : DB :=
  match saveMoose db m with
  | .ok db1 => db1
  | .error _ => db

/-- States of the store reachable from the empty schema through the
public mutation operations. -/
inductive Reachable : DB → Prop
  | base : Reachable emptyDB
  | save (m : MooseJS) : Reachable db → Reachable (afterSave db m)
  | bulk (ms : List MooseJS) : Reachable db → Reachable (bulkSaveMoose db ms).1
  | del (n : String) : Reachable db → Reachable (deleteMoose db n)
  | png (n : String) (p : List Nat) : Reachable db → Reachable (saveMoosePng db n p)

/-! ### JSON serialization (`JSON.stringify(rowToMoose(value))`) -/

/-- Lowercase hex digit. -/
def hexDigit (n : Nat) : Char :=
  if n < 10 then Char.ofNat (48 + n) else Char.ofNat (87 + n)

/-- Escaping of one character inside a JSON string, as JSON.stringify
performs it. -/
def escChar (c : Char) : List Char :=
  if c = '"' then ['\\', '"']
  else if c = '\\' then ['\\', '\\']
  else if c.toNat = 8 then ['\\', 'b']
  else if c.toNat = 12 then ['\\', 'f']
  else if c = '\n' then ['\\', 'n']
  else if c = '\r' then ['\\', 'r']
  else if c = '\t' then ['\\', 't']
  else if c.toNat < 32 then ['\\', 'u', '0', '0', hexDigit (c.toNat / 16), hexDigit (c.toNat % 16)]
  else [c]

/-- A JSON string literal for `s`. -/
def jsonString (s : String) : String :=
  "\"" ++ String.mk (s.data.foldr (fun c acc => escChar c ++ acc) []) ++ "\""

/-- A JSON boolean literal. -/
def jsonBool (b : Bool) : String :=
  if b then "true" else "false"

/-- Left-pad the decimal form of `n` with zeros to width `w`. -/
def padNum (w n : Nat) : String :=
  let s := toString n
  if s.length < w then String.mk (List.replicate (w - s.length) '0') ++ s else s

/-- Proleptic Gregorian calendar date of a day count relative to
1970-01-01 (floor-division form of the standard civil-from-days
algorithm; in Mathlib `/` and `%` on `Int` are Euclidean, which for the
positive divisors used here is exactly floor division). -/
def civilFromDays (z0 : Int) : Int × Nat × Nat :=
  let z := z0 + 719468
  let era : Int := z / 146097
  let doe : Nat := (z % 146097).toNat
  let yoe : Nat := (doe - doe / 1460 + doe / 36524 - doe / 146096) / 365
  let doy : Nat := doe - (365 * yoe + yoe / 4 - yoe / 100)
  let mp : Nat := (5 * doy + 2) / 153
  let d : Nat := doy - (153 * mp + 2) / 5 + 1
  let m : Nat := if mp < 10 then mp + 3 else mp - 9
  ((yoe : Int) + era * 400 + (if m ≤ 2 then 1 else 0), m, d)

/-- The year field of `Date.prototype.toISOString`: four digits inside
0..9999, otherwise the expanded six-digit signed form. -/
def isoYear (y : Int) : String :=
  if 0 ≤ y ∧ y ≤ 9999 then padNum 4 y.toNat
  else if y < 0 then "-" ++ padNum 6 y.natAbs
  else "+" ++ padNum 6 y.toNat

/-- Model of `Date.prototype.toISOString` on a valid time value `t` (ms
since the epoch). -/
def toISOString (t : Int) : String :=
  let days : Int := t / 86400000
  let msod : Nat := (t % 86400000).toNat
  let ymd := civilFromDays days
  isoYear ymd.1 ++ "-" ++ padNum 2 ymd.2.1 ++ "-" ++ padNum 2 ymd.2.2 ++
    "T" ++ padNum 2 (msod / 3600000) ++ ":" ++ padNum 2 (msod % 3600000 / 60000) ++
    ":" ++ padNum 2 (msod % 60000 / 1000) ++ "." ++ padNum 3 (msod % 1000) ++ "Z"

/-- JSON.stringify of a `Date`: the ISO string for a valid date, the
`null` literal for an Invalid Date (its `toJSON` returns null). -/
def jsonDate : Option Int → String
  | none => "null"
  | some t => jsonString (toISOString t)

/-- JSON.stringify of a decoded Moose: own enumerable properties in the
insertion order of the object literal in `rowToMoose`. -/
def mooseJson (m : Moose) : String :=
  "\x7b" ++ joinWith ","
    ["\"name\":" ++ jsonString m.name,
     "\"image\":" ++ jsonString m.image,
     "\"shade\":" ++ jsonString m.shade,
     "\"created\":" ++ jsonDate m.created,
     "\"hd\":" ++ jsonBool m.hd,
     "\"shaded\":" ++ jsonBool m.shaded,
     "\"extended\":" ++ jsonBool m.extended] ++ "\x7d"

/-! ### The streaming exporter `MooseReadable` -/

/-- The chunks pushed by the successive `_read` calls of `MooseReadable`
over the remaining cursor rows: while a row is available its JSON is
pushed (prefixed with a comma unless it is the first element), and on
exhaustion the closing bracket is pushed. -/
def readChunks (first : Bool) : List StoredRow → List String
  | [] => ["]"]
  | r :: rest =>
    (if first then mooseJson (rowToMoose r) else "," ++ mooseJson (rowToMoose r)) ::
      readChunks false rest

/-- Concatenation of the pushed chunks in push order. -/
def concatAll : List String → String
  | [] => ""
  | x :: rest => x ++ concatAll rest

/-- The full byte output of a `MooseReadable` over `rows`: the `[` pushed
by the constructor followed by everything `_read` pushes until the stream
ends. -/
def streamOutput (rows : List StoredRow) : String :=
  concatAll ("[" :: readChunks true rows)

/-- The row cursor underlying a `MooseReadable` (the iterator of
`dumpDbStmt.iterate()`): its remaining rows, whether it has been closed,
and how many times its `return` method has been invoked. -/
structure Cursor where
  remaining : List StoredRow
  closed : Bool
  returns : Nat
deriving DecidableEq, Repr

/-- Lifecycle state of a `MooseReadable`: its exclusively owned cursor
and whether the stream has ended (pushed `null` or been destroyed). -/
structure ReadableState where
  iter : Cursor
  ended : Bool
deriving DecidableEq, Repr

/-- The state right after the `MooseReadable` constructor. -/
def streamStart (rows : List StoredRow) : ReadableState :=
  ⟨⟨rows, false, 0⟩, false⟩

/-- Cursor effect of one `_read` call: advance the iterator, or push
`null` and end the stream when it is exhausted (Node does not call
`_read` again after the stream ended). -/
def readStep (s : ReadableState) : ReadableState :=
  if s.ended then s
  else
    match s.iter.remaining with
    | [] => { s with ended := true }
    | _ :: rest => { s with iter := { s.iter with remaining := rest } }

/-- Effect of `_destroy`: `this.iter.return()` closes the cursor, and the
stream is torn down.  Node's stream machinery invokes `_destroy` exactly
once per stream — on explicit destruction, on error, or (autoDestroy)
after the natural end — which is why an execution is any number of reads
followed by one destroy. -/
def destroyStep (s : ReadableState) : ReadableState :=
  { s with iter := { s.iter with closed := true, returns := s.iter.returns + 1 },
           ended := true }

/-! ### Shared helper lemmas -/

/-- A found-at-the-end lemma for `find?`: when no element of `l`
satisfies `p` and the appended element does, `find?` returns it. -/
lemma find?_append_last (l : List StoredRow) (p : StoredRow → Bool) (x : StoredRow)
    (h : ∀ y ∈ l, p y = false) (hx : p x = true) : (l ++ [x]).find? p = some x := by
  induction l with
  | nil => rw [List.nil_append, List.find?_cons_of_pos _ hx]
  | cons a tl ih =>
    have ha : ¬ p a = true := by simp [h a (List.mem_cons_self a tl)]
    rw [List.cons_append, List.find?_cons_of_neg _ ha]
    exact ih (fun y hy => h y (List.mem_cons_of_mem _ hy))

/-- Concrete moose used by witness states. -/
def mooseNamed (n : String) (t : Int) : MooseJS :=
  ⟨some n, some t, some "img", some "", some false, some false, some false⟩

/-! ### C5 — encoder defaults -/

/-- C5: for every value passed to the encoder, a missing name or image
encodes to null, the `created` time value encodes to null exactly when it
is not a finite integer (i.e. the Date is invalid), a missing shade
encodes to the empty string, missing boolean flags default to false, and
the three flags always encode to 0 or 1. -/
theorem mooseToRow_defaults (m : MooseJS) :
    (m.name = none → (mooseToRow m).name = none) ∧
    (m.image = none → (mooseToRow m).image = none) ∧
    ((mooseToRow m).created = none ↔ m.created = none) ∧
    (m.shade = none → (mooseToRow m).shade = "") ∧
    (m.hd = none → (mooseToRow m).hd = 0) ∧
    (m.shaded = none → (mooseToRow m).shaded = 0) ∧
    (m.extended = none → (mooseToRow m).extended = 0) ∧
    ((mooseToRow m).hd = 0 ∨ (mooseToRow m).hd = 1) ∧
    ((mooseToRow m).shaded = 0 ∨ (mooseToRow m).shaded = 1) ∧
    ((mooseToRow m).extended = 0 ∨ (mooseToRow m).extended = 1) := by
  refine ⟨fun h => by simp [mooseToRow, h], fun h => by simp [mooseToRow, h],
    by simp [mooseToRow], fun h => by simp [mooseToRow, h],
    fun h => by simp [mooseToRow, h], fun h => by simp [mooseToRow, h],
    fun h => by simp [mooseToRow, h], ?_, ?_, ?_⟩ <;>
  · simp only [mooseToRow]
    split <;> simp

/-- Witness for C5 at the all-missing object. -/
theorem mooseToRow_defaults_witness :
    (mooseToRow ⟨none, none, none, none, none, none, none⟩).name = none ∧
    (mooseToRow ⟨none, none, none, none, none, none, none⟩).shade = "" ∧
    (mooseToRow ⟨none, none, none, none, none, none, none⟩).hd = 0 :=
  ⟨(mooseToRow_defaults _).1 rfl,
   (mooseToRow_defaults _).2.2.2.1 rfl,
   (mooseToRow_defaults _).2.2.2.2.1 rfl⟩

/-! ### C4 — gallery page argument validation -/

/-- C4 counterexample: a negative integer offset is NOT rejected — the
claimed `InvalidArgument` error does not occur, the call succeeds. -/
theorem getGalleryPage_negative_offset_ok :
    getGalleryPage emptyDB "" (JSNum.num (-1)) (JSNum.num 5) "newest" =
      Except.ok [] := by
  rfl

/-- C4 amended: `getGalleryPage` throws the validation `TypeError`
exactly for a non-finite or non-integer offset or limit (for every store
state, before any statement runs); finite integers — including negative
ones — are accepted, and on the plain pagination path the call then
succeeds. -/
theorem getGalleryPage_validation (db : DB) (query : String) (offset lim : JSNum)
    (order : String) :
    ((notInt offset || notInt lim) = true →
      getGalleryPage db query offset lim order = Except.error DBErr.typeError) ∧
    ((notInt offset || notInt lim) = false →
      ∃ ms, getGalleryPage db "" offset lim order = Except.ok ms) := by
  constructor
  · intro h
    simp [getGalleryPage, h]
  · intro h
    simp [getGalleryPage, h]

/-- Witness for C4's amended statement: `limit = 3/2` is rejected with
the TypeError, `offset = -1` is accepted. -/
theorem getGalleryPage_validation_witness :
    getGalleryPage emptyDB "" (JSNum.num 0) (JSNum.num (3 / 2)) "newest" =
      Except.error DBErr.typeError ∧
    ∃ ms, getGalleryPage emptyDB "" (JSNum.num (-1)) (JSNum.num 5) "newest" =
      Except.ok ms :=
  ⟨(getGalleryPage_validation emptyDB "" (JSNum.num 0) (JSNum.num (3 / 2)) "newest").1
      (by
        have hden : ((3 : ℚ) / 2).den = 2 := by norm_num
        simp [notInt, JSNum.isNaN, JSNum.isFinite, JSNum.isInteger, hden]),
   (getGalleryPage_validation emptyDB "" (JSNum.num (-1)) (JSNum.num 5) "newest").2
      (by decide)⟩

/-! ### C10 — the delete trigger breaks rowid contiguity -/

/-- Store holding three meese saved in order (rowids 1, 2, 3). -/
def dbABC : DB :=
  afterSave (afterSave (afterSave emptyDB (mooseNamed "A" 100)) (mooseNamed "B" 200))
    (mooseNamed "C" 300)

/-- C10 evaluated at the failing input: deleting the moose that holds the
maximal rowid makes `Moose_DelTrigger` move the new maximal row UP into
the freed slot (rowids become `[1, 3]`, not the contiguous `1..2` the
claim asserts), after which the random draw `ABS(RANDOM()) % 3 + 1 = 2`
hits the gap and `getRandomMoose` returns absent on a store that still
holds two records.  The empty-store half of the claim does hold: the
random lookup is absent on the empty store. -/
theorem deleteMax_breaks_randomMoose :
    (deleteMoose dbABC "C").rows.length = 2 ∧
    (deleteMoose dbABC "C").rows.map (·.rowid) = [1, 3] ∧
    getRandomMoose (deleteMoose dbABC "C") 1 = none ∧
    (∀ rand : Nat, getRandomMoose emptyDB rand = none) := by
  refine ⟨by decide, by decide, by decide, fun rand => rfl⟩

/-! ### C8 — the export cursor is released exactly once -/

/-- Reading never touches the cursor's lifecycle fields. -/
lemma readStep_iter_flags (s : ReadableState) :
    (readStep s).iter.closed = s.iter.closed ∧
      (readStep s).iter.returns = s.iter.returns := by
  unfold readStep
  split
  · exact ⟨rfl, rfl⟩
  · split <;> exact ⟨rfl, rfl⟩

/-- After any number of `_read` calls the cursor is still open and its
`return` has never been invoked. -/
lemma readIter_flags (rows : List StoredRow) (n : Nat) :
    (readStep^[n] (streamStart rows)).iter.closed = false ∧
      (readStep^[n] (streamStart rows)).iter.returns = 0 := by
  induction n with
  | zero => exact ⟨rfl, rfl⟩
  | succ k ih =>
    rw [Function.iterate_succ_apply']
    exact ⟨(readStep_iter_flags _).1.trans ih.1, (readStep_iter_flags _).2.trans ih.2⟩

/-- C8: over every execution of a `MooseReadable` — any number of
`_read` pulls (early cancellation, a mid-stream error, or running to the
natural end) followed by the single `_destroy` call Node's stream
machinery guarantees — the underlying cursor ends closed and its
`return` has been invoked exactly once. -/
theorem mooseReadable_cursor_released (rows : List StoredRow) (n : Nat) :
    (destroyStep (readStep^[n] (streamStart rows))).iter.closed = true ∧
    (destroyStep (readStep^[n] (streamStart rows))).iter.returns = 1 := by
  have h := readIter_flags rows n
  exact ⟨rfl, by simp [destroyStep, h.2]⟩

/-! ### C7 — streaming export shape -/

/-- Joining with a separator versus prefixing every later element. -/
lemma joinWith_eq_concat_seps (sep x : String) (xs : List String) :
    joinWith sep (x :: xs) = x ++ concatAll (xs.map (fun y => sep ++ y)) := by
  induction xs generalizing x with
  | nil => simp [joinWith, concatAll, String.append_empty]
  | cons y ys ih =>
    rw [joinWith, ih y, List.map_cons, concatAll]
    simp [String.append_assoc]

/-- The chunks after the first element concatenate to the comma-prefixed
serializations followed by the closing bracket. -/
lemma concat_readChunks_rest (rs : List StoredRow) :
    concatAll (readChunks false rs) =
      concatAll (rs.map (fun r => "," ++ mooseJson (rowToMoose r))) ++ "]" := by
  induction rs with
  | nil => rfl
  | cons r tl ih =>
    rw [readChunks, List.map_cons, concatAll, concatAll, ih]
    simp [String.append_assoc]

/-- C7: the exporter emits `[`, then the stored records as comma-separated
JSON objects — each one the `JSON.stringify` of the same `rowToMoose`
decode used by the direct lookups — then `]`, with no trailing comma: the
whole output is the standard rendering of a JSON array with exactly one
element per stored record, and the empty store yields `[]`. -/
theorem streamOutput_json_array (rows : List StoredRow) :
    streamOutput rows =
      "[" ++ joinWith "," (rows.map (fun r => mooseJson (rowToMoose r))) ++ "]" ∧
    (rows.map (fun r => mooseJson (rowToMoose r))).length = rows.length ∧
    streamOutput [] = "[]" := by
  refine ⟨?_, rows.length_map _, rfl⟩
  cases rows with
  | nil => rfl
  | cons r tl =>
    rw [streamOutput, concatAll, readChunks, concatAll, concat_readChunks_rest,
      List.map_cons, joinWith_eq_concat_seps]
    simp [String.append_assoc, List.map_map, Function.comp_def]

/-! ### C1 — save / getByName roundtrip -/

/-- No stored row carries name `n` when every row's name differs from it. -/
lemma any_name_false (rows : List StoredRow) (n : String)
    (h : ∀ r ∈ rows, r.name ≠ n) :
    (rows.any fun row => row.name == n) = false := by
  rw [List.any_eq_false]
  intro r hr
  simp [h r hr]

/-- C1: saving a valid moose whose name is not yet in the store and
reading it back by name yields a record equal to it in `name`, `created`,
`image`, `shade`, `hd`, `shaded`, `extended`, with the png blob absent —
the codec roundtrip `rowToMoose ∘ mooseToRow` is the identity on those
fields. -/
theorem saveMoose_roundtrip
    (db : DB) (m : MooseJS) (n i sh : String) (t : Int) (b1 b2 b3 : Bool)
    (hn : m.name = some n) (ht : m.created = some t) (hi : m.image = some i)
    (hs : m.shade = some sh) (h1 : m.hd = some b1) (h2 : m.shaded = some b2)
    (h3 : m.extended = some b3)
    (hrange : t.natAbs ≤ maxDateMs)
    (hfresh : ∀ r ∈ db.rows, r.name ≠ n) :
    ∃ db1, saveMoose db m = Except.ok db1 ∧
      getMooseByName db1 n = some ⟨n, i, sh, some t, b1, b2, b3⟩ ∧
      getMoosePng db1 n = none := by
  have hany := any_name_false db.rows n hfresh
  have hfind := find?_append_last db.rows (fun row => row.name == n)
    { rowid := maxRowid db.rows + 1, name := n, created := t, image := i,
      shade := sh, hd := if b1 then 1 else 0, shaded := if b2 then 1 else 0,
      extended := if b3 then 1 else 0, png := none }
    (fun y hy => by simp [hfresh y hy]) (by simp)
  refine ⟨⟨db.rows ++
      [{ rowid := maxRowid db.rows + 1, name := n, created := t, image := i,
         shade := sh, hd := if b1 then 1 else 0, shaded := if b2 then 1 else 0,
         extended := if b3 then 1 else 0, png := none }],
      db.search ++ [n]⟩, ?_, ?_, ?_⟩
  · simp [saveMoose, insertRow, mooseToRow, hn, ht, hi, hs, h1, h2, h3, hany]
  · simp only [getMooseByName, hfind, Option.map_some]
    have hdate : mkDate t = some t := by simp [mkDate, hrange]
    simp [rowToMoose, hdate]
    cases b1 <;> cases b2 <;> cases b3 <;> simp
  · simp [getMoosePng, hfind]

/-- Witness for C1 at a concrete moose on the empty store. -/
theorem saveMoose_roundtrip_witness :
    ∃ db1,
      saveMoose emptyDB ⟨some "a", some 100, some "i", some "s", some true,
        some false, some true⟩ = Except.ok db1 ∧
      getMooseByName db1 "a" = some ⟨"a", "i", "s", some 100, true, false, true⟩ ∧
      getMoosePng db1 "a" = none :=
  saveMoose_roundtrip emptyDB _ "a" "i" "s" 100 true false true rfl rfl rfl rfl
    rfl rfl rfl (by decide) (by simp [emptyDB])

/-! ### C2 — bulk import duplicate tolerance and rollback -/

/-- Characterization of a successful insert: the row is appended with the
next rowid and an absent png, and the trigger appends the name to the
search table. -/
lemma insertRow_ok_spec (db db1 : DB) (r : MooseRow) (n : String) (c : Int)
    (i : String) (hn : r.name = some n) (hc : r.created = some c)
    (hi : r.image = some i)
    (hany : (db.rows.any fun row => row.name == n) = false)
    (h : insertRow db r = Except.ok db1) :
    db1.rows = db.rows ++
      [{ rowid := maxRowid db.rows + 1, name := n, created := c, image := i,
         shade := r.shade, hd := r.hd, shaded := r.shaded,
         extended := r.extended, png := none }] ∧
    db1.search = db.search ++ [n] := by
  unfold insertRow at h
  rw [hn, hc, hi] at h
  simp only [hany, Bool.false_eq_true, if_false, Except.ok.injEq] at h
  rw [← h]
  exact ⟨rfl, rfl⟩

/-- Re-inserting a row with the same name right after a successful insert
fails the name-uniqueness constraint. -/
lemma insertRow_dup_after (db db1 : DB) (r : MooseRow) (n : String)
    (hn : r.name = some n) (h : insertRow db r = Except.ok db1) :
    insertRow db1 r = Except.error DBErr.uniqueName := by
  unfold insertRow at h ⊢
  rw [hn] at h ⊢
  cases hc : r.created with
  | none => rw [hc] at h; exact absurd h (by simp)
  | some c =>
    cases hi : r.image with
    | none => rw [hc, hi] at h; exact absurd h (by simp)
    | some i =>
      rw [hc, hi] at h
      by_cases hany : (db.rows.any fun row => row.name == n) = true
      · simp only [hany, if_true] at h
        exact absurd h (by simp)
      · have hany2 : (db.rows.any fun row => row.name == n) = false :=
          Bool.not_eq_true _ |>.mp hany
        simp only [hany2, Bool.false_eq_true, if_false, Except.ok.injEq] at h
        have hmem : (db1.rows.any fun row => row.name == n) = true := by
          rw [← h]
          simp
        simp only [hmem, if_true]

/-- C2: a batch holding the same fresh valid moose twice bulk-saves
without raising, the post-state is exactly the single-save state (one
copy persisted), and whenever a bulk save does propagate an error the
whole batch is rolled back — the post-state is the pre-transaction
state. -/
theorem bulkSaveMoose_duplicate_tolerant
    (db : DB) (m : MooseJS) (n i : String) (t : Int)
    (hn : m.name = some n) (ht : m.created = some t) (hi : m.image = some i)
    (hfresh : ∀ r ∈ db.rows, r.name ≠ n) :
    (∃ db1, saveMoose db m = Except.ok db1 ∧
      bulkSaveMoose db [m, m] = (db1, none) ∧
      (db1.rows.filter (fun r => r.name == n)).length = 1) ∧
    (∀ ms e, (bulkSaveMoose db ms).2 = some e → (bulkSaveMoose db ms).1 = db) := by
  have hany := any_name_false db.rows n hfresh
  constructor
  · cases hs1 : saveMoose db m with
    | error e =>
      exfalso
      revert hs1
      simp [saveMoose, insertRow, mooseToRow, hn, ht, hi, hany]
    | ok db1 =>
      have h0 : insertRow db (mooseToRow m) = Except.ok db1 := hs1
      have hrn : (mooseToRow m).name = some n := by simp [mooseToRow, hn]
      have hdup := insertRow_dup_after db db1 (mooseToRow m) n hrn h0
      have hspec := insertRow_ok_spec db db1 (mooseToRow m) n t i hrn
        (by simp [mooseToRow, ht]) (by simp [mooseToRow, hi]) hany h0
      refine ⟨db1, rfl, ?_, ?_⟩
      · simp only [bulkSaveMoose, bulkBody, h0, hdup]
      · rw [hspec.1, List.filter_append]
        have hnil : db.rows.filter (fun r => r.name == n) = [] := by
          rw [List.filter_eq_nil_iff]
          intro r hr
          simp [hfresh r hr]
        simp [hnil]
  · intro ms e h
    rw [bulkSaveMoose] at h ⊢
    cases hb : bulkBody db ms with
    | ok d => rw [hb] at h; simp at h
    | error e1 => rfl

/-- Witness for C2 on the empty store. -/
theorem bulkSaveMoose_duplicate_tolerant_witness :
    ∃ db1, saveMoose emptyDB (mooseNamed "w" 7) = Except.ok db1 ∧
      bulkSaveMoose emptyDB [mooseNamed "w" 7, mooseNamed "w" 7] = (db1, none) ∧
      (db1.rows.filter (fun r => r.name == "w")).length = 1 :=
  (bulkSaveMoose_duplicate_tolerant emptyDB (mooseNamed "w" 7) "w" "img" 7 rfl rfl
    rfl (by simp [emptyDB])).1

/-! ### C3 — the tokenizer agrees with its specification -/

/-- A whitespace split always yields at least one token. -/
lemma splitAux_ne_nil (l : List Char) : ∀ (b : Bool) (cur : List Char),
    splitAux b l cur ≠ [] := by
  induction l with
  | nil => intro b cur; simp [splitAux]
  | cons c rest ih =>
    intro b cur
    simp only [splitAux]
    split
    · split
      · exact ih true cur
      · exact List.cons_ne_nil _ _
    · exact ih false (c :: cur)

/-- The index-against-length rule of the source equals the
last-token-separate rule of the specification, elementwise. -/
lemma mapWithIdx_lastSplit (len : Nat) (l : List String) (x : String) :
    ∀ i : Nat, i + l.length + 1 = len →
      mapWithIdx (ftsWordRule len) i (l ++ [x]) =
        l.map specWordRule ++ [quoteWord x] := by
  induction l with
  | nil =>
    intro i hi
    simp only [List.nil_append, mapWithIdx, List.map_nil]
    have hIdx : ¬ i ≠ len - 1 := by
      simp only [List.length_nil] at hi
      omega
    rw [ftsWordRule, if_neg (fun hcon => hIdx hcon.2)]
  | cons a tl ih =>
    intro i hi
    simp only [List.cons_append, mapWithIdx, List.map_cons, List.cons_append]
    have hne : i ≠ len - 1 := by
      simp only [List.length_cons] at hi
      omega
    congr 1
    · rw [ftsWordRule, specWordRule]
      by_cases hP : a = "AND" ∨ a = "OR"
      · rw [if_pos ⟨hP, hne⟩, if_pos hP]
      · rw [if_neg (fun hcon => hP hcon.1), if_neg hP]
    · refine ih (i + 1) ?_
      simp only [List.length_cons] at hi
      omega

/-- C3: for every query string, the expression built by
`_findMooseByQuery` is exactly the one the specification describes —
split on whitespace, pass non-final `AND`/`OR` tokens through, double the
embedded quotes of every other token and wrap it in double quotes, rejoin
with single spaces. -/
theorem tokenizer_matches_spec (q : String) :
    ftsQueryString q = tokenizeSpec q := by
  have hne : splitWs q ≠ [] := splitAux_ne_nil _ _ _
  obtain ⟨l, x, hlx⟩ : ∃ l x, splitWs q = l ++ [x] :=
    ⟨(splitWs q).dropLast, (splitWs q).getLast hne,
      (List.dropLast_append_getLast hne).symm⟩
  unfold ftsQueryString tokenizeSpec
  rw [hlx]
  rw [mapWithIdx_lastSplit (l ++ [x]).length l x 0 (by simp)]
  have hlast : (l ++ [x]).getLast? = some x := List.getLast?_concat l
  rw [hlast]
  simp only [List.dropLast_concat]

/-! ### C6 — the search index mirrors the table -/

/-- Well-formedness of a store state: the search table holds exactly the
row names (in insertion order) and the names are pairwise distinct. -/
def dbWf (db : DB) : Prop :=
  db.search = db.rows.map (·.name) ∧ (db.rows.map (·.name)).Nodup

/-- Filtering rows by name commutes with projecting the names. -/
lemma map_name_filter (rows : List StoredRow) (n : String) :
    (rows.filter (fun row => row.name ≠ n)).map (·.name) =
      (rows.map (·.name)).filter (fun s => s ≠ n) := by
  induction rows with
  | nil => rfl
  | cons r tl ih =>
    simp only [ne_eq, decide_not] at ih
    by_cases h : r.name = n <;> simp [List.filter_cons, h, ih]

/-- A successful insert preserves well-formedness. -/
lemma dbWf_insertRow (db db1 : DB) (r : MooseRow) (hwf : dbWf db)
    (h : insertRow db r = Except.ok db1) : dbWf db1 := by
  unfold insertRow at h
  cases hn : r.name with
  | none => rw [hn] at h; exact absurd h (by simp)
  | some n =>
    cases hc : r.created with
    | none => rw [hn, hc] at h; exact absurd h (by simp)
    | some c =>
      cases hi : r.image with
      | none => rw [hn, hc, hi] at h; exact absurd h (by simp)
      | some i =>
        rw [hn, hc, hi] at h
        by_cases hany : (db.rows.any fun row => row.name == n) = true
        · simp only [hany, if_true] at h
          exact absurd h (by simp)
        · have hany2 : (db.rows.any fun row => row.name == n) = false :=
            Bool.not_eq_true _ |>.mp hany
          simp only [hany2, Bool.false_eq_true, if_false, Except.ok.injEq] at h
          have hnotmem : n ∉ db.rows.map (·.name) := by
            intro hmem
            obtain ⟨row, hrow, hname⟩ := List.mem_map.mp hmem
            have := List.any_eq_false.mp hany2 row hrow
            simp [hname] at this
          constructor
          · rw [← h]
            simp only [List.map_append, hwf.1]
            rfl
          · rw [← h]
            simp only [List.map_append]
            rw [List.nodup_append]
            refine ⟨hwf.2, List.nodup_singleton n, ?_⟩
            intro a ha hb
            simp only [List.map_cons, List.map_nil, List.mem_singleton] at hb
            exact hnotmem (hb ▸ ha)

/-- `saveMoose` preserves well-formedness whatever its outcome. -/
lemma dbWf_afterSave (db : DB) (m : MooseJS) (hwf : dbWf db) :
    dbWf (afterSave db m) := by
  unfold afterSave
  cases h : saveMoose db m with
  | ok db1 => exact dbWf_insertRow db db1 (mooseToRow m) hwf h
  | error e => exact hwf

/-- The transaction body of the bulk import preserves well-formedness. -/
lemma dbWf_bulkBody (ms : List MooseJS) : ∀ db db1 : DB, dbWf db →
    bulkBody db ms = Except.ok db1 → dbWf db1 := by
  induction ms with
  | nil =>
    intro db db1 hwf h
    rw [bulkBody] at h
    simp only [Except.ok.injEq] at h
    exact h ▸ hwf
  | cons m rest ih =>
    intro db db1 hwf h
    rw [bulkBody] at h
    cases hins : insertRow db (mooseToRow m) with
    | ok db2 =>
      rw [hins] at h
      exact ih db2 db1 (dbWf_insertRow db db2 (mooseToRow m) hwf hins) h
    | error e =>
      rw [hins] at h
      cases e with
      | uniqueName => exact ih db db1 hwf h
      | notNullName => exact absurd h (by simp)
      | notNullCreated => exact absurd h (by simp)
      | notNullImage => exact absurd h (by simp)
      | typeError => exact absurd h (by simp)
      | ftsBadQuery => exact absurd h (by simp)

/-- `bulkSaveMoose` preserves well-formedness whatever its outcome. -/
lemma dbWf_bulk (db : DB) (ms : List MooseJS) (hwf : dbWf db) :
    dbWf (bulkSaveMoose db ms).1 := by
  unfold bulkSaveMoose
  cases h : bulkBody db ms with
  | ok db1 => exact dbWf_bulkBody ms db db1 hwf h
  | error e => exact hwf

/-- `deleteMoose` preserves well-formedness: the trigger removes the
matching search entries together with the row, and the rowid reshuffle
leaves the names untouched. -/
lemma dbWf_delete (db : DB) (n : String) (hwf : dbWf db) :
    dbWf (deleteMoose db n) := by
  unfold deleteMoose
  cases hf : db.rows.find? (fun row => row.name == n) with
  | none => exact hwf
  | some old =>
    have hmapmap : ∀ (rows : List StoredRow) (m : Nat),
        (rows.map (fun row =>
          if row.rowid = m then { row with rowid := old.rowid } else row)).map (·.name) =
        rows.map (·.name) := by
      intro rows m
      rw [List.map_map]
      refine List.map_congr_left ?_
      intro row _
      by_cases h : row.rowid = m <;> simp [h]
    constructor
    · rw [hmapmap, map_name_filter, hwf.1]
    · rw [hmapmap, map_name_filter]
      exact hwf.2.filter _

/-- `saveMoosePng` preserves well-formedness: it only touches the png
column. -/
lemma dbWf_png (db : DB) (n : String) (p : List Nat) (hwf : dbWf db) :
    dbWf (saveMoosePng db n p) := by
  unfold saveMoosePng
  have hmap : (db.rows.map (fun row =>
      if row.name = n then { row with png := some p } else row)).map (·.name) =
      db.rows.map (·.name) := by
    rw [List.map_map]
    refine List.map_congr_left ?_
    intro row _
    by_cases h : row.name = n <;> simp [h]
  exact ⟨by rw [hmap]; exact hwf.1, by rw [hmap]; exact hwf.2⟩

/-- Every reachable state is well-formed. -/
lemma dbWf_reachable (db : DB) (h : Reachable db) : dbWf db := by
  induction h with
  | base => exact ⟨rfl, List.nodup_nil⟩
  | save m _ ih => exact dbWf_afterSave _ m ih
  | bulk ms _ ih => exact dbWf_bulk _ ms ih
  | del n _ ih => exact dbWf_delete _ n ih
  | png n p _ ih => exact dbWf_png _ n p ih

/-- C6: in every store state reachable through the public mutation
operations, a name present in the `Moose` table has exactly one entry in
the `MooseSearch` index and a name absent from the table has none — the
triggers keep the index in lock-step with the table inside the same
atomic mutation. -/
theorem searchIndex_in_sync (db : DB) (h : Reachable db) (n : String) :
    (n ∈ db.rows.map (·.name) → db.search.count n = 1) ∧
    (n ∉ db.rows.map (·.name) → db.search.count n = 0) := by
  have hwf := dbWf_reachable db h
  rw [hwf.1]
  exact ⟨fun hmem => List.count_eq_one_of_mem hwf.2 hmem,
    fun hmem => List.count_eq_zero.mpr hmem⟩

/-- Witness for C6: after saving one moose from the empty store, its name
counts exactly once in the search index. -/
theorem searchIndex_in_sync_witness :
    (afterSave emptyDB (mooseNamed "A" 100)).search.count "A" = 1 :=
  (searchIndex_in_sync _ (Reachable.save (mooseNamed "A" 100) Reachable.base) "A").1
    (by decide)

/-! ### C9 — injection safety of the search path -/

/-- C9 counterexample: a query with `AND` twice in mid-phrase position
produces the match expression `"x" AND AND "y"`, which is not a valid
fts5 expression — the statement throws instead of returning, so
`getGalleryPage` on this query is not exception-free. -/
theorem galleryQuery_connectors_throw :
    getGalleryPage emptyDB "x AND AND y" (JSNum.num 0) (JSNum.num 5) "newest" =
      Except.error DBErr.ftsBadQuery := by
  rfl

/-- When no word of the query is a bare connector, every token is a
quoted phrase. -/
lemma mapWithIdx_tokRule_phrases (len : Nat) (l : List String)
    (h : ∀ w ∈ l, ¬(w = "AND" ∨ w = "OR")) :
    ∀ i, mapWithIdx (ftsTokRule len) i l = l.map FtsTok.phrase := by
  induction l with
  | nil => intro i; rfl
  | cons a tl ih =>
    intro i
    have ha := h a (List.mem_cons_self a tl)
    simp only [mapWithIdx, List.map_cons]
    rw [ftsTokRule, if_neg (fun hcon => ha hcon.1)]
    rw [ih (fun w hw => h w (List.mem_cons_of_mem _ hw)) (i + 1)]

/-- A nonempty sequence of phrases is a valid match expression. -/
lemma ftsValidAux_false_phrases (l : List String) :
    ftsValidAux false (l.map FtsTok.phrase) = true := by
  induction l with
  | nil => rfl
  | cons a tl ih => exact ih

/-- Validity of an all-phrase token stream. -/
lemma ftsValid_all_phrases (l : List String) (hne : l ≠ []) :
    ftsValid (l.map FtsTok.phrase) = true := by
  cases l with
  | nil => exact absurd rfl hne
  | cons a tl => exact ftsValidAux_false_phrases tl

/-- C9 amended: embedded double quotes cannot inject — they are doubled
and the word is wrapped in quotes, so for every query whose whitespace
tokens are nonempty and none of which is the bare word `AND`/`OR`, the
built expression is a valid sequence of quoted phrases and the search
call never throws.  (Bare `AND`/`OR` tokens in connector position can
yield an invalid expression and an fts5 error, per the counterexample.) -/
theorem galleryQuery_no_connector_safe
    (db : DB) (q : String) (off lim : JSNum) (order : String)
    (hoff : notInt off = false) (hlim : notInt lim = false) (hq : q ≠ "")
    (hw : ∀ w ∈ splitWs q, w ≠ "" ∧ w ≠ "AND" ∧ w ≠ "OR") :
    ∃ ms, getGalleryPage db q off lim order = Except.ok ms := by
  have htoks : ftsTokens q = (splitWs q).map FtsTok.phrase :=
    mapWithIdx_tokRule_phrases _ _
      (fun w hw2 hcon => hcon.elim (hw w hw2).2.1 (hw w hw2).2.2) 0
  have hvalid : ftsValid (ftsTokens q) = true := by
    rw [htoks]
    exact ftsValid_all_phrases _ (splitAux_ne_nil _ _ _)
  simp [getGalleryPage, hoff, hlim, hq, findMooseByQuery, hvalid]

/-- Witness for C9's amended statement: a query containing a double quote
is searched without an error. -/
theorem galleryQuery_no_connector_safe_witness :
    ∃ ms, getGalleryPage emptyDB "a\"b" (JSNum.num 0) (JSNum.num 5) "newest" =
      Except.ok ms :=
  galleryQuery_no_connector_safe emptyDB "a\"b" (JSNum.num 0) (JSNum.num 5)
    "newest" (by decide) (by decide) (by decide) (by decide)

end NeoMoose
